import Mathlib

/-!
Verification of the bookbot repository (src/main.py, src/typeutils/custom_types.py).

Modelling conventions:
* A Python string is a sequence of Unicode code points, modelled as `List Nat`.
* `str.lower` on one character returns a STRING, not a character: `pyLower`
  has type `Nat → List Nat`.  It is Python's mapping restricted to a fragment
  that contains every class the claims turn on: the ASCII letters A–Z, the
  Latin-1 uppercase letters, the dotted capital I U+0130 (whose lower case is
  the two code points i + combining dot above), the uppercase Roman numerals
  U+2160–U+216F (not alphabetic for `str.isalpha`, yet lowered), and the
  circled capital letters U+24B6–U+24CF (likewise non-alphabetic but
  lowered).  Code points outside the fragment are fixed; the fragment is
  closed under `pyLower` (every lower-case image is fixed).
* Because `char.lower()` is a string, the keys of the frequency dict are
  strings: the dict is an insertion-ordered association list
  `List (List Nat × Nat)`, matching the insertion-order iteration guarantee
  of Python dicts that the source relies on.  `char.isalpha()` on a key is
  `pyStrIsAlpha`: non-empty and every code point alphabetic.
* `sorted(items, reverse=True, key=value)` is a stable descending sort by the
  value component; it is modelled by `List.insertionSort` with the relation
  `fun a b => b.2 ≤ a.2`, which is exactly the stable descending sort.
* The filesystem seen by the loader is an explicit map from path to file
  content; `os.path.isfile` is a lookup test and `open(...).read()` returns the
  stored content.  Raising an exception is modelled by `Except.error`.
-/

namespace Bookbot

/-- The whitespace class of Python's `str.split()` restricted to code points
below 256: tab–carriage return (9–13), the file/group/record/unit separators
(28–31), space (32), next line (133) and no-break space (160). -/
def pyIsSpace (c : Nat) : Bool :=
  decide ((9 ≤ c ∧ c ≤ 13) ∨ (28 ≤ c ∧ c ≤ 32) ∨ c = 133 ∨ c = 160)

/-- Python's `str.isalpha` on one code point (general category Lu, Ll, Lt,
Lm or Lo) on the model's fragment: ASCII letters, the Latin-1 letters
(ª µ º and the accented letters, excluding the signs × and ÷), and Latin
Extended-A (U+0100–U+017F, which contains İ).  The uppercase Roman numerals
U+2160–U+216F (category Nl), the circled letters U+24B6–U+24E9 (So) and the
combining dot above U+0307 (Mn) are NOT alphabetic for Python. -/
def pyIsAlpha (c : Nat) : Bool :=
  decide ((65 ≤ c ∧ c ≤ 90) ∨ (97 ≤ c ∧ c ≤ 122) ∨ c = 170 ∨ c = 181
    ∨ c = 186 ∨ (192 ≤ c ∧ c ≤ 214) ∨ (216 ≤ c ∧ c ≤ 246)
    ∨ (248 ≤ c ∧ c ≤ 383))

/-- Python's `str.lower` on a single code point — a STRING result, since
lower-casing may change the length ('İ'.lower() is "i̇", two code points).
On the model's fragment: A–Z and the Latin-1 uppercase letters À–Þ (except
×) map 32 code points up, İ U+0130 maps to [i, combining dot above], the
uppercase Roman numerals U+2160–U+216F map 16 up, the circled capital
letters U+24B6–U+24CF map 26 up; every other code point is fixed. -/
def pyLower (c : Nat) : List Nat :=
  if 65 ≤ c ∧ c ≤ 90 then [c + 32]
  else if (192 ≤ c ∧ c ≤ 214) ∨ (216 ≤ c ∧ c ≤ 222) then [c + 32]
  else if c = 304 then [105, 775]
  else if 8544 ≤ c ∧ c ≤ 8559 then [c + 16]
  else if 9398 ≤ c ∧ c ≤ 9423 then [c + 26]
  else [c]

/-- Python's `str.lower` on a whole string: each code point is replaced by
its lower-case image. -/
def strLower (s : List Nat) : List Nat := (s.map pyLower).flatten

/-- Python's `str.isalpha` on a whole string: non-empty, and every code
point alphabetic. -/
def pyStrIsAlpha (s : List Nat) : Bool :=
  !s.isEmpty && s.all (fun c => pyIsAlpha c)

/-- The splitter behind Python's `str.split()` (no separator argument):
`acc` holds the code points of the word currently being read, in reverse. -/
def splitAux : List Nat → List Nat → List (List Nat)
  | [], acc => if acc.isEmpty then [] else [acc.reverse]
  | c :: cs, acc =>
    if pyIsSpace c then
      if acc.isEmpty then splitAux cs [] else acc.reverse :: splitAux cs []
    else
      splitAux cs (c :: acc)

/-- Python's `corpus.split()`: the maximal runs of non-whitespace code points,
in order, with no empty tokens. -/
def pySplit (s : List Nat) : List (List Nat) := splitAux s []

/-- `CorpusAnalyser.word_count` (src/main.py lines 58–61):
`len(self._corpus.split())`. -/
def word_count (corpus : List Nat) : Nat := (pySplit corpus).length

/-- `dd[k] += 1` on a `defaultdict(int)` held as an insertion-ordered
association list (keys are strings): bump the entry of `k` in place, or
append `(k, 1)`. -/
def dictIncr : List (List Nat × Nat) → List Nat → List (List Nat × Nat)
  | [], k => [(k, 1)]
  | (c, n) :: rest, k =>
    if c = k then (c, n + 1) :: rest else (c, n) :: dictIncr rest k

/-- `CorpusAnalyser.unique_character_count` (src/main.py lines 63–73):
`for char in self._corpus: dd[char.lower()] += 1` — the key is the STRING
`char.lower()`, which may have more than one code point. -/
def unique_character_count (corpus : List Nat) : List (List Nat × Nat) :=
  corpus.foldl (fun d c => dictIncr d (pyLower c)) []

/-- Reading a key from the `defaultdict(int)`: the stored count, or 0. -/
def dictGet (d : List (List Nat × Nat)) (k : List Nat) : Nat :=
  match d.lookup k with
  | some n => n
  | none => 0

/-- The sum of all stored counts (`sum(d.values())`). -/
def sumValues (d : List (List Nat × Nat)) : Nat := (d.map Prod.snd).sum

/-- The descending comparison used by `sorted(d.items(), reverse=True,
key=lambda i: i[1])`: place `a` before `b` exactly when `b`'s count does not
exceed `a`'s, which makes the insertion sort the stable descending sort. -/
def descByValue (a b : List Nat × Nat) : Prop := b.2 ≤ a.2

instance : DecidableRel descByValue := fun a b => Nat.decLe b.2 a.2

instance : IsTotal (List Nat × Nat) descByValue :=
  ⟨fun a b => Nat.le_total b.2 a.2⟩

instance : IsTrans (List Nat × Nat) descByValue :=
  ⟨fun _ _ _ h₁ h₂ => Nat.le_trans h₂ h₁⟩

/-- `Reporter._sort_dict_by_value` (src/main.py lines 102–105):
`dict(sorted(d.items(), reverse=True, key=lambda i: i[1]))`, the stable sort
by count descending. -/
def sort_dict_by_value (d : List (List Nat × Nat)) : List (List Nat × Nat) :=
  List.insertionSort descByValue d

/-- Rendering a model string (code points) as Lean text, for the report. -/
def cpString (s : List Nat) : String := String.mk (s.map Char.ofNat)

/-- One yielded line of `Reporter._parse_character_dict`:
`f"The '{char}' character was found {n} times.\n"` (`char` is the dict key,
a string). -/
def charLine (c : List Nat) (cnt : Nat) : String :=
  "The '" ++ cpString c ++ "' character was found "
    ++ toString cnt ++ " times.\n"

/-- `Reporter._parse_character_dict` (src/main.py lines 107–114): sort by
count descending, skip the keys failing `char.isalpha()`, yield one line per
key. -/
def parse_character_dict (d : List (List Nat × Nat)) : List String :=
  ((sort_dict_by_value d).filter (fun p => pyStrIsAlpha p.1)).map
    (fun p => charLine p.1 p.2)

/-- `Reporter.write_report` (src/main.py lines 116–130). -/
def write_report (title : String) (word_count : Nat)
    (character_counts : List (List Nat × Nat)) : String :=
  let ln_header := "--- Begin report of books/" ++ title ++ ".txt ---\n"
  let ln_skip := "\n"
  let ln_footer := "--- End report ---"
  let ln_word_count := toString word_count ++ " words found in the document.\n"
  let ln_char_count := String.join (parse_character_dict character_counts)
  ln_header ++ ln_word_count ++ ln_skip ++ ln_char_count ++ ln_skip ++ ln_footer

/-- A raised Python exception, carrying its message. -/
inductive PyError where
  | exception : String → PyError
deriving DecidableEq

/-- The filesystem as the loader sees it: a map from path to file content. -/
def FileSystem : Type := List (String × List Nat)

/-- `CorpusAnalyser._path_to_corpus` (src/main.py lines 40–47): build
`./books/<title>.txt`, raise when no file exists there.  (`p.absolute()` is a
bijective renaming of paths; the model keeps the relative name throughout.) -/
def path_to_corpus (fs : FileSystem) (title : String) : Except PyError String :=
  let p := "./books/" ++ title ++ ".txt"
  if (List.lookup p fs).isSome then Except.ok p
  else Except.error (PyError.exception "Specified title wasn't found.")

/-- `CorpusAnalyser._load_corpus` (src/main.py lines 49–56): resolve the path,
then read the whole file. -/
def load_corpus (fs : FileSystem) (title : String) : Except PyError (List Nat) :=
  match path_to_corpus fs title with
  | Except.error e => Except.error e
  | Except.ok p =>
    match List.lookup p fs with
    | some textbody => Except.ok textbody
    | none => Except.error (PyError.exception "read failure")

/-- The state of a constructed `CorpusAnalyser`: its `_title` and `_corpus`
fields (the `_reporter` field is the constant `Reporter`). -/
structure CorpusAnalyser where
  title : String
  corpus : List Nat
deriving DecidableEq

/-- `CorpusAnalyser.__init__` (src/main.py lines 34–38): load the corpus;
a raised exception propagates and no analyser is produced. -/
def CorpusAnalyser.init (fs : FileSystem) (title : String) :
    Except PyError CorpusAnalyser :=
  match load_corpus fs title with
  | Except.error e => Except.error e
  | Except.ok c => Except.ok { title := title, corpus := c }

/-- The `report` property (src/main.py lines 79–83): feed the title, the word
count and the character counts to the reporter. -/
def CorpusAnalyser.report (a : CorpusAnalyser) : String :=
  write_report a.title (word_count a.corpus) (unique_character_count a.corpus)

/-- The analysis pipeline of `main` (src/main.py lines 13–19): construct the
analyser for a title, then produce its report. -/
def run_bookbot (fs : FileSystem) (title : String) : Except PyError String :=
  match CorpusAnalyser.init fs title with
  | Except.error e => Except.error e
  | Except.ok a => Except.ok (CorpusAnalyser.report a)

/-- Python's `text[:limit]` for an arbitrary integer `limit`: a non-negative
bound keeps the first `limit` code points; a negative bound drops the last
`|limit|` (clamped at the empty string). -/
def pySliceTo (text : List Nat) (limit : Int) : List Nat :=
  if 0 ≤ limit then text.take limit.toNat
  else text.take (text.length - (-limit).toNat)

/-- The truncation marker `"[...]"` as code points. -/
def truncation_marker : List Nat := [91, 46, 46, 46, 93]

/-- `console_logger` (src/main.py lines 133–145), modelled as the sequence of
code points written to stdout: `print(f"\n{text}", msg, end="\n\n")` emits a
newline, the (possibly truncated) text, the separating space, `msg`, and the
two final newlines. -/
def console_logger (text : List Nat) (limit : Option Int) : List Nat :=
  match limit with
  | none => [10] ++ text ++ [32] ++ [10, 10]
  | some l =>
    let t := pySliceTo text l
    let msg := if l < (t.length : Int) then truncation_marker else []
    [10] ++ t ++ [32] ++ msg ++ [10, 10]

/-- Whether the truncation marker occurs contiguously in an output. -/
def containsMarker : List Nat → Bool
  | [] => false
  | c :: cs => List.isPrefixOf truncation_marker (c :: cs) || containsMarker cs

/-! Definitions taken from the specification's words, for the refinement
claims: they are compared with the definitions translated from the source. -/

/-- Modelled from the spec: a word is "a maximal run of non-whitespace
characters"; the count of such runs, carrying the flag "the previous
code point was whitespace (or the start)". -/
def countRunsAux : Bool → List Nat → Nat
  | _, [] => 0
  | prevSpace, c :: cs =>
    if pyIsSpace c then countRunsAux true cs
    else (if prevSpace then 1 else 0) + countRunsAux false cs

/-- Modelled from the spec: the number of maximal runs of non-whitespace
code points in the corpus. -/
def countRuns (s : List Nat) : Nat := countRunsAux true s

/-- Modelled from the spec's original claim about tallying — "lower-cases
alphabetic characters … non-alphabetic characters are counted under their
own literal value".  The program does NOT realise this key (see the
counterexample to claim C3): Python also lowers some non-alphabetic code
points. -/
def specKey (c : Nat) : List Nat := if pyIsAlpha c then pyLower c else [c]

/-- The non-alphabetic code points of the fragment that Python's `lower()`
nevertheless changes: the uppercase Roman numerals and the circled capital
letters. -/
def pyNonAlphaLowerable (c : Nat) : Bool :=
  decide ((8544 ≤ c ∧ c ≤ 8559) ∨ (9398 ≤ c ∧ c ≤ 9423))

/-- The tallying key of the AMENDED claim C3: alphabetic characters under
their lower-cased form; non-alphabetic characters under their own literal
value, except the non-alphabetic code points with a Unicode lower-case
mapping (Roman numerals, circled letters), which are tallied under that
mapping. -/
def specKeyAmended (c : Nat) : List Nat :=
  if pyIsAlpha c then pyLower c
  else if pyNonAlphaLowerable c then pyLower c
  else [c]

/-- Modelled from the spec's report template: the header line. -/
def specHeaderLine (title : String) : String :=
  "--- Begin report of books/" ++ title ++ ".txt ---"

/-- Modelled from the spec's report template: the word-count line. -/
def specWordLine (n : Nat) : String :=
  toString n ++ " words found in the document."

/-- Modelled from the spec's report template: the footer line. -/
def specFooterLine : String := "--- End report ---"

/-- Modelled from the spec's report template: one character line (without the
line terminator, which the joining of lines supplies). -/
def specCharLine (c : List Nat) (cnt : Nat) : String :=
  "The '" ++ cpString c ++ "' character was found "
    ++ toString cnt ++ " times."

/-- Modelled from the spec: "filter `frequencies` to alphabetic keys only;
sort the filtered entries by count descending" (stable, ties in first-seen
order), then render one line per entry. -/
def specCharLines (d : List (List Nat × Nat)) : List String :=
  (sort_dict_by_value (d.filter (fun p => pyStrIsAlpha p.1))).map
    (fun p => specCharLine p.1 p.2)

/-- Joining a list of report lines with newline separators, as in the spec's
verbatim output block. -/
def joinLines : List String → String
  | [] => ""
  | [l] => l
  | l :: ls => l ++ "\n" ++ joinLines ls

/-- Modelled from the spec: the exact literal report — header line, word-count
line, a blank line, the character lines, a blank line, the footer line. -/
def specReport (title : String) (n : Nat) (d : List (List Nat × Nat)) : String :=
  joinLines ([specHeaderLine title, specWordLine n, ""]
    ++ specCharLines d ++ ["", specFooterLine])

/-! Helper lemmas about the character model and the frequency dictionary. -/

theorem pyLower_fix (c : Nat) (h1 : ¬(65 ≤ c ∧ c ≤ 90))
    (h2 : ¬((192 ≤ c ∧ c ≤ 214) ∨ (216 ≤ c ∧ c ≤ 222))) (h3 : ¬c = 304)
    (h4 : ¬(8544 ≤ c ∧ c ≤ 8559)) (h5 : ¬(9398 ≤ c ∧ c ≤ 9423)) :
    pyLower c = [c] := by
  simp only [pyLower, if_neg h1, if_neg h2, if_neg h3, if_neg h4, if_neg h5]

theorem pyLower_ne_nil (c : Nat) : pyLower c ≠ [] := by
  unfold pyLower
  split_ifs <;> simp

theorem strLower_single (c : Nat) : strLower [c] = pyLower c := by
  simp [strLower]

theorem strLower_pyLower (c : Nat) : strLower (pyLower c) = pyLower c := by
  unfold pyLower
  split_ifs with h1 h2 h3 h4 h5
  · rw [strLower_single]
    exact pyLower_fix _ (by omega) (by omega) (by omega) (by omega) (by omega)
  · rw [strLower_single]
    exact pyLower_fix _ (by omega) (by omega) (by omega) (by omega) (by omega)
  · decide
  · rw [strLower_single]
    exact pyLower_fix _ (by omega) (by omega) (by omega) (by omega) (by omega)
  · rw [strLower_single]
    exact pyLower_fix _ (by omega) (by omega) (by omega) (by omega) (by omega)
  · rw [strLower_single]
    exact pyLower_fix c h1 h2 h3 h4 h5

theorem pyLower_eq_specKeyAmended (c : Nat) : pyLower c = specKeyAmended c := by
  unfold specKeyAmended
  split_ifs with ha hl
  · rfl
  · rfl
  · simp only [pyIsAlpha, decide_eq_true_eq] at ha
    simp only [pyNonAlphaLowerable, decide_eq_true_eq] at hl
    exact pyLower_fix c (by omega) (by omega) (by omega) (by omega) (by omega)

theorem sumValues_cons (p : List Nat × Nat) (l : List (List Nat × Nat)) :
    sumValues (p :: l) = p.2 + sumValues l := by
  simp [sumValues]

theorem sumValues_dictIncr (d : List (List Nat × Nat)) (k : List Nat) :
    sumValues (dictIncr d k) = sumValues d + 1 := by
  induction d with
  | nil => simp [dictIncr, sumValues]
  | cons p rest ih =>
    obtain ⟨c, n⟩ := p
    by_cases h : c = k
    · simp [dictIncr, h, sumValues_cons]
      omega
    · simp [dictIncr, h, sumValues_cons, ih]
      omega

theorem sumValues_ucc_aux (l : List Nat) :
    ∀ d, sumValues (l.foldl (fun d c => dictIncr d (pyLower c)) d)
      = sumValues d + l.length := by
  induction l with
  | nil => intro d; simp
  | cons c cs ih =>
    intro d
    simp only [List.foldl_cons, ih, sumValues_dictIncr, List.length_cons]
    omega

theorem dictGet_nil (k : List Nat) : dictGet [] k = 0 := rfl

theorem dictGet_cons (c : List Nat) (n : Nat) (k : List Nat)
    (rest : List (List Nat × Nat)) :
    dictGet ((c, n) :: rest) k = if k = c then n else dictGet rest k := by
  by_cases h : k = c
  · subst h
    simp [dictGet, List.lookup]
  · have hb : (k == c) = false := by simpa using h
    simp [dictGet, List.lookup, hb, h]

theorem dictGet_dictIncr (d : List (List Nat × Nat)) (j k : List Nat) :
    dictGet (dictIncr d j) k = dictGet d k + (if j = k then 1 else 0) := by
  induction d with
  | nil =>
    by_cases h : j = k
    · subst h
      simp [dictIncr, dictGet_cons, dictGet_nil]
    · have h' : ¬ k = j := fun hh => h hh.symm
      simp [dictIncr, dictGet_cons, dictGet_nil, h, h']
  | cons p rest ih =>
    obtain ⟨c, n⟩ := p
    by_cases hc : c = j
    · subst hc
      simp only [dictIncr, if_pos rfl]
      by_cases hk : k = c
      · subst hk
        simp [dictGet_cons]
      · have hj : ¬ c = k := fun hh => hk hh.symm
        simp [dictGet_cons, hk, hj]
    · simp only [dictIncr, if_neg hc]
      by_cases hk : k = c
      · subst hk
        have hj : ¬ j = k := fun hh => hc hh.symm
        simp [dictGet_cons, hj]
      · simp [dictGet_cons, hk, ih]

theorem dictGet_ucc_aux (l : List Nat) :
    ∀ d k, dictGet (l.foldl (fun d c => dictIncr d (pyLower c)) d) k
      = dictGet d k + l.countP (fun c => pyLower c == k) := by
  induction l with
  | nil => intro d k; simp
  | cons c cs ih =>
    intro d k
    simp only [List.foldl_cons, ih, dictGet_dictIncr, List.countP_cons]
    by_cases h : pyLower c = k <;> (simp [h]; try omega)

theorem dictIncr_mem_good (d : List (List Nat × Nat)) (k : List Nat)
    (hd : ∀ p ∈ d, strLower p.1 = p.1 ∧ p.1 ≠ [] ∧ 1 ≤ p.2)
    (hk : strLower k = k) (hk2 : k ≠ []) :
    ∀ p ∈ dictIncr d k, strLower p.1 = p.1 ∧ p.1 ≠ [] ∧ 1 ≤ p.2 := by
  induction d with
  | nil =>
    intro p hp
    have hpk : p = (k, 1) := by simpa [dictIncr] using hp
    subst hpk
    exact ⟨hk, hk2, Nat.le_refl 1⟩
  | cons q rest ih =>
    obtain ⟨c, n⟩ := q
    intro p hp
    by_cases h : c = k
    · subst h
      rw [dictIncr, if_pos rfl] at hp
      rcases List.mem_cons.mp hp with hp1 | hp1
      · subst hp1
        have hcn := hd (c, n) (List.mem_cons_self _ _)
        exact ⟨hcn.1, hcn.2.1, by omega⟩
      · exact hd p (List.mem_cons_of_mem _ hp1)
    · rw [dictIncr, if_neg h] at hp
      rcases List.mem_cons.mp hp with hp1 | hp1
      · subst hp1
        exact hd (c, n) (List.mem_cons_self _ _)
      · exact ih (fun q hq => hd q (List.mem_cons_of_mem _ hq)) p hp1

theorem ucc_mem_good (corpus : List Nat) :
    ∀ d, (∀ p ∈ d, strLower p.1 = p.1 ∧ p.1 ≠ [] ∧ 1 ≤ p.2) →
      ∀ p ∈ corpus.foldl (fun d c => dictIncr d (pyLower c)) d,
        strLower p.1 = p.1 ∧ p.1 ≠ [] ∧ 1 ≤ p.2 := by
  induction corpus with
  | nil => intro d hd p hp; exact hd p (by simpa using hp)
  | cons c cs ih =>
    intro d hd p hp
    simp only [List.foldl_cons] at hp
    exact ih _ (dictIncr_mem_good d _ hd (strLower_pyLower c) (pyLower_ne_nil c))
      p hp

/-! The claims about the analyser's frequency dictionary. -/

/-- Claim C1: for every corpus, the sum of all values in the mapping returned
by `unique_character_count` equals the total character length of the corpus
(each source character performs exactly one increment, whatever key its
lower-cased image is). -/
theorem claim_C1 (corpus : List Nat) :
    sumValues (unique_character_count corpus) = corpus.length := by
  have h := sumValues_ucc_aux corpus []
  simpa [unique_character_count, sumValues] using h

/-- Counterexample to claim C3 as stated: the corpus "Ⅰ" (the Roman numeral
U+2160 = 8544, for which Python's `isalpha()` is False) is NOT counted under
its own literal value: `lower()` maps it to "ⅰ" (U+2170 = 8560), the mapping
stores its count under that changed key, and the literal-value key of the
spec (`specKey`) holds count 0. -/
theorem claim_C3_counterexample :
    pyIsAlpha 8544 = false
    ∧ specKey 8544 = [8544]
    ∧ unique_character_count [8544] = [([8560], 1)]
    ∧ dictGet (unique_character_count [8544]) (specKey 8544) = 0 := by decide

/-- Claim C3 (amended): `unique_character_count` counts each character of
the corpus exactly once, tallying alphabetic characters under their
lower-cased form and non-alphabetic characters under their own literal
value, EXCEPT the non-alphabetic code points that Python's `lower()`
nevertheless changes (the Roman numerals and circled letters), which are
tallied under their lower-cased image: the count stored for any key `k` is
the number of corpus characters whose amended tallying key
(`specKeyAmended`) is `k`. -/
theorem claim_C3 (corpus : List Nat) (k : List Nat) :
    dictGet (unique_character_count corpus) k
      = corpus.countP (fun c => specKeyAmended c == k) := by
  have h := dictGet_ucc_aux corpus [] k
  have hfun : (fun c => pyLower c == k) = (fun c => specKeyAmended c == k) := by
    funext c
    rw [pyLower_eq_specKeyAmended]
  simpa [unique_character_count, dictGet, List.lookup, hfun] using h

/-- Counterexample to claim C10 as stated: not every key of the mapping is a
single character.  The corpus "İ" (U+0130 = 304) stores the key
"i̇" = [105, 775] ('İ'.lower() has length 2), a two-code-point string. -/
theorem claim_C10_counterexample :
    unique_character_count [304] = [([105, 775], 1)]
    ∧ ¬ ([105, 775] : List Nat).length = 1 := by decide

/-- Claim C10 (amended): every key of the mapping returned by
`unique_character_count` is a non-empty string equal to its own lower-cased
form (no key contains an uppercase letter), and every stored count is at
least 1 — but a key need not be a single character (see the
counterexample). -/
theorem claim_C10 (corpus : List Nat) (k : List Nat) (n : Nat)
    (h : (k, n) ∈ unique_character_count corpus) :
    strLower k = k ∧ k ≠ [] ∧ 1 ≤ n := by
  exact ucc_mem_good corpus [] (by simp) (k, n)
    (by simpa [unique_character_count] using h)

/-- Witness for the amended claim C10 at the corpus "Aa": the key "a" with
count 2. -/
theorem claim_C10_witness : strLower [97] = [97] ∧ [97] ≠ [] ∧ 1 ≤ 2 :=
  claim_C10 [65, 97] [97] 2 (by decide)

/-! Helper lemmas about word splitting. -/

theorem splitAux_length (cs : List Nat) :
    ∀ acc, (splitAux cs acc).length
      = countRunsAux acc.isEmpty cs + (if acc.isEmpty then 0 else 1) := by
  induction cs with
  | nil =>
    intro acc
    cases acc <;> simp [splitAux, countRunsAux]
  | cons c cs ih =>
    intro acc
    cases h : pyIsSpace c
    · cases acc with
      | nil =>
        simp only [splitAux, h, Bool.false_eq_true, if_false, countRunsAux,
          List.isEmpty_nil, List.isEmpty_cons, if_true]
        rw [ih (c :: [])]
        simp [countRunsAux]
        omega
      | cons a acc =>
        simp only [splitAux, h, Bool.false_eq_true, if_false, countRunsAux,
          List.isEmpty_cons]
        rw [ih (c :: a :: acc)]
        simp [countRunsAux]
    · cases acc with
      | nil =>
        simp only [splitAux, h, if_true, List.isEmpty_nil, countRunsAux]
        rw [ih []]
        simp
      | cons a acc =>
        simp only [splitAux, h, if_true, List.isEmpty_cons, countRunsAux,
          Bool.false_eq_true, if_false, List.length_cons]
        rw [ih []]
        simp [countRunsAux]

theorem word_count_eq_countRuns (corpus : List Nat) :
    word_count corpus = countRuns corpus := by
  have h := splitAux_length corpus []
  simpa [word_count, pySplit, countRuns] using h

theorem countRunsAux_ws_prepend (ws : List Nat)
    (h : ∀ c ∈ ws, pyIsSpace c = true) (s : List Nat) :
    countRunsAux true (ws ++ s) = countRunsAux true s := by
  induction ws with
  | nil => rfl
  | cons c cs ih =>
    have hc : pyIsSpace c = true := h c (List.mem_cons_self _ _)
    simp only [List.cons_append, countRunsAux, hc, if_true]
    exact ih (fun x hx => h x (List.mem_cons_of_mem _ hx))

theorem countRunsAux_all_space (ws : List Nat)
    (h : ∀ c ∈ ws, pyIsSpace c = true) : ∀ b, countRunsAux b ws = 0 := by
  induction ws with
  | nil => intro b; rfl
  | cons c cs ih =>
    intro b
    have hc : pyIsSpace c = true := h c (List.mem_cons_self _ _)
    simp only [countRunsAux, hc, if_true]
    exact ih (fun x hx => h x (List.mem_cons_of_mem _ hx)) true

theorem countRunsAux_ws_append (s ws : List Nat)
    (h : ∀ c ∈ ws, pyIsSpace c = true) :
    ∀ b, countRunsAux b (s ++ ws) = countRunsAux b s := by
  induction s with
  | nil =>
    intro b
    simp [countRunsAux, countRunsAux_all_space ws h b]
  | cons c cs ih =>
    intro b
    cases hc : pyIsSpace c <;>
      simp only [List.cons_append, countRunsAux, hc, Bool.false_eq_true,
        if_false, if_true, List.append_eq, ih]

/-- Claim C2: `word_count` returns the number of maximal runs of
non-whitespace characters in the corpus, and prepending or appending
whitespace does not change the returned count. -/
theorem claim_C2 (corpus ws : List Nat) (h : ∀ c ∈ ws, pyIsSpace c = true) :
    word_count corpus = countRuns corpus
    ∧ word_count (ws ++ corpus) = word_count corpus
    ∧ word_count (corpus ++ ws) = word_count corpus := by
  refine ⟨word_count_eq_countRuns corpus, ?_, ?_⟩
  · rw [word_count_eq_countRuns, word_count_eq_countRuns, countRuns, countRuns,
      countRunsAux_ws_prepend ws h corpus]
  · rw [word_count_eq_countRuns, word_count_eq_countRuns, countRuns, countRuns,
      countRunsAux_ws_append corpus ws h true]

/-- Witness for claim C2 at the corpus "a b" with surrounding whitespace
" \n". -/
theorem claim_C2_witness :
    word_count [97, 32, 98] = countRuns [97, 32, 98]
    ∧ word_count ([32, 10] ++ [97, 32, 98]) = word_count [97, 32, 98]
    ∧ word_count ([97, 32, 98] ++ [32, 10]) = word_count [97, 32, 98] :=
  claim_C2 [97, 32, 98] [32, 10] (by decide)

/-! Helper lemmas about the stable descending sort and the report text. -/

theorem orderedInsert_of_all (x : List Nat × Nat) (l : List (List Nat × Nat))
    (h : ∀ z ∈ l, z.2 ≤ x.2) :
    List.orderedInsert descByValue x l = x :: l := by
  cases l with
  | nil => rfl
  | cons y ys =>
    have hy : descByValue x y := h y (List.mem_cons_self _ _)
    simp [List.orderedInsert, hy]

theorem filter_orderedInsert (pr : List Nat × Nat → Bool) (x : List Nat × Nat)
    (l : List (List Nat × Nat)) (hl : List.Sorted descByValue l) :
    (List.orderedInsert descByValue x l).filter pr
      = if pr x then List.orderedInsert descByValue x (l.filter pr)
        else l.filter pr := by
  induction l with
  | nil =>
    cases hpx : pr x <;> simp [List.orderedInsert, List.filter, hpx]
  | cons y ys ih =>
    have hys : List.Sorted descByValue ys := hl.of_cons
    have hy : ∀ z ∈ ys, descByValue y z := (List.pairwise_cons.mp hl).1
    by_cases hxy : descByValue x y
    · rw [List.orderedInsert, if_pos hxy]
      cases hpx : pr x
      · cases hpy : pr y <;> simp [List.filter, hpx, hpy]
      · cases hpy : pr y
        · have hall : ∀ z ∈ ys.filter pr, z.2 ≤ x.2 := by
            intro z hz
            have hzys : z ∈ ys := List.mem_of_mem_filter hz
            exact Nat.le_trans (hy z hzys) hxy
          simp [List.filter, hpx, hpy, orderedInsert_of_all x _ hall]
        · simp [List.filter, hpx, hpy, List.orderedInsert, hxy]
    · rw [List.orderedInsert, if_neg hxy]
      cases hpx : pr x
      · cases hpy : pr y <;>
          simpa [List.filter, hpx, hpy] using ih hys
      · cases hpy : pr y
        · simpa [List.filter, hpx, hpy] using ih hys
        · simpa [List.filter, hpx, hpy, List.orderedInsert, hxy] using ih hys

theorem filter_insertionSort (pr : List Nat × Nat → Bool)
    (l : List (List Nat × Nat)) :
    (List.insertionSort descByValue l).filter pr
      = List.insertionSort descByValue (l.filter pr) := by
  induction l with
  | nil => rfl
  | cons x xs ih =>
    rw [List.insertionSort,
      filter_orderedInsert pr x _ (List.sorted_insertionSort _ xs)]
    cases hpx : pr x
    · simp [List.filter, hpx, ih]
    · simp [List.filter, hpx, ih, List.insertionSort]

theorem join_cons (s : String) (l : List String) :
    String.join (s :: l) = s ++ String.join l := by
  apply String.ext
  simp

theorem join_nil : String.join ([] : List String) = "" := rfl

theorem join_append (l1 l2 : List String) :
    String.join (l1 ++ l2) = String.join l1 ++ String.join l2 := by
  apply String.ext
  simp

theorem joinLines_cons_of_ne (a : String) (l : List String) (h : l ≠ []) :
    joinLines (a :: l) = a ++ "\n" ++ joinLines l := by
  cases l with
  | nil => exact absurd rfl h
  | cons b t => rfl

theorem joinLines_append (ls : List String) (f : String) :
    joinLines (ls ++ ["", f])
      = String.join (ls.map (fun s => s ++ "\n")) ++ "\n" ++ f := by
  induction ls with
  | nil => rfl
  | cons a ls ih =>
    rw [List.cons_append, joinLines_cons_of_ne a _ (by simp), ih,
      List.map_cons, join_cons]
    simp [String.append_assoc]

theorem charLine_eq (c : List Nat) (cnt : Nat) :
    specCharLine c cnt ++ "\n" = charLine c cnt := by
  simp [charLine, specCharLine, String.append_assoc]

/-! The claims about the reporter. -/

/-- Claim C6: the character lines of the report contain exactly the
alphabetic entries of the mapping (a permutation of the alphabetic-filtered
mapping), ordered by count descending, and sorting the full mapping before
filtering to alphabetic keys yields the same sequence as filtering first and
then sorting.  (Order on equal counts is the first-seen order, deterministic
because the sort is a function.) -/
theorem claim_C6 (d : List (List Nat × Nat)) :
    parse_character_dict d
      = ((sort_dict_by_value (d.filter (fun q => pyStrIsAlpha q.1))).map
          (fun q => charLine q.1 q.2))
    ∧ ((sort_dict_by_value d).filter (fun q => pyStrIsAlpha q.1)).Perm
        (d.filter (fun q => pyStrIsAlpha q.1))
    ∧ List.Sorted descByValue
        ((sort_dict_by_value d).filter (fun q => pyStrIsAlpha q.1)) := by
  refine ⟨?_, ?_, ?_⟩
  · unfold parse_character_dict sort_dict_by_value
    rw [filter_insertionSort]
  · unfold sort_dict_by_value
    rw [filter_insertionSort]
    exact List.perm_insertionSort _ _
  · unfold sort_dict_by_value
    rw [filter_insertionSort]
    exact List.sorted_insertionSort _ _

/-- Claim C5: the formatted report is exactly the literal sequence of lines
of the specification's template — header, word-count line, blank line, one
character line per alphabetic entry in sorted order, blank line, footer —
joined by newlines. -/
theorem claim_C5 (title : String) (n : Nat) (d : List (List Nat × Nat)) :
    write_report title n d = specReport title n d := by
  unfold specReport
  rw [joinLines_append]
  unfold specCharLines
  rw [List.map_append, List.map_map]
  have hmap : ((fun s => s ++ "\n")
        ∘ fun q : List Nat × Nat => specCharLine q.1 q.2)
      = fun q : List Nat × Nat => charLine q.1 q.2 := by
    funext q
    exact charLine_eq q.1 q.2
  rw [hmap]
  unfold write_report parse_character_dict sort_dict_by_value
  rw [filter_insertionSort, join_append]
  simp only [List.map_cons, List.map_nil, join_cons, join_nil]
  simp [specHeaderLine, specWordLine, specFooterLine, String.append_assoc]

/-- Claim C7: for the empty corpus, the word count is 0, the frequency
mapping is empty, and the generated report contains the line
"0 words found in the document." and no character lines. -/
theorem claim_C7 (title : String) :
    word_count [] = 0
    ∧ unique_character_count [] = []
    ∧ parse_character_dict (unique_character_count []) = []
    ∧ write_report title 0 (unique_character_count [])
        = "--- Begin report of books/" ++ title ++ ".txt ---\n"
          ++ "0 words found in the document.\n" ++ "\n" ++ "\n"
          ++ "--- End report ---" := by
  refine ⟨rfl, rfl, rfl, ?_⟩
  show write_report title 0 [] = _
  unfold write_report parse_character_dict sort_dict_by_value
  simp [String.append_assoc]
  rw [show (toString (0 : Nat)) = "0" from rfl, join_nil]
  simp [String.append_assoc]

/-! The claims about the loader, purity, and the console logger. -/

/-- Claim C4: when no file exists at `books/<title>.txt`, constructing the
analyser raises the not-found exception and the pipeline produces no report
(the spec's `NotFoundError`, raised in the source as
`Exception("Specified title wasn't found.")`). -/
theorem claim_C4 (fs : FileSystem) (title : String)
    (h : List.lookup ("./books/" ++ title ++ ".txt") fs = none) :
    run_bookbot fs title
      = Except.error (PyError.exception "Specified title wasn't found.") := by
  unfold run_bookbot CorpusAnalyser.init load_corpus path_to_corpus
  simp [h]

/-- Witness for claim C4: the empty filesystem holds no
`books/frankenstein.txt`. -/
theorem claim_C4_witness :
    run_bookbot [] "frankenstein"
      = Except.error (PyError.exception "Specified title wasn't found.") :=
  claim_C4 [] "frankenstein" rfl

/-- Claim C8: the analyser's operations and the report generation are
deterministic pure functions of their inputs: two analysers with the same
corpus (whatever their titles) give identical word counts and frequency
mappings, the report is byte-for-byte identical on identical arguments, and
the `report` property recomputes exactly the pure pipeline on the stored
state. -/
theorem claim_C8 (a₁ a₂ : CorpusAnalyser) (h : a₁.corpus = a₂.corpus)
    (t : String) (n : Nat) (d : List (List Nat × Nat)) :
    word_count a₁.corpus = word_count a₂.corpus
    ∧ unique_character_count a₁.corpus = unique_character_count a₂.corpus
    ∧ write_report t n d = write_report t n d
    ∧ CorpusAnalyser.report a₁
        = write_report a₁.title (word_count a₁.corpus)
            (unique_character_count a₁.corpus) :=
  ⟨by rw [h], by rw [h], rfl, rfl⟩

/-- Witness for claim C8 at two analysers sharing the corpus "a". -/
theorem claim_C8_witness :
    word_count (CorpusAnalyser.mk "x" [97]).corpus
        = word_count (CorpusAnalyser.mk "y" [97]).corpus
    ∧ unique_character_count (CorpusAnalyser.mk "x" [97]).corpus
        = unique_character_count (CorpusAnalyser.mk "y" [97]).corpus
    ∧ write_report "t" 1 [([97], 1)] = write_report "t" 1 [([97], 1)]
    ∧ CorpusAnalyser.report (CorpusAnalyser.mk "x" [97])
        = write_report (CorpusAnalyser.mk "x" [97]).title
            (word_count (CorpusAnalyser.mk "x" [97]).corpus)
            (unique_character_count (CorpusAnalyser.mk "x" [97]).corpus) :=
  claim_C8 (CorpusAnalyser.mk "x" [97]) (CorpusAnalyser.mk "y" [97]) rfl
    "t" 1 [([97], 1)]

/-- Counterexample to claim C9 as stated: for the negative limit `-1`, the
truncation marker `[...]` appears in the output of `console_logger` — after
`text = text[:limit]` shortens a negative-limit slice, `limit < len(text)`
compares a negative number with a length and is always true. -/
theorem claim_C9_counterexample :
    containsMarker (console_logger [97, 98] (some (-1))) = true := by decide

/-- Claim C9 as amended: for every NON-NEGATIVE limit the marker branch is
unreachable — the comparison `limit < len(text)` is made only after `text`
has been truncated to at most `limit` characters — so the output is exactly
the newline, the truncated text, the separating space and the two final
newlines, with no truncation marker appended. -/
theorem claim_C9 (text : List Nat) (l : Int) (h : 0 ≤ l) :
    console_logger text (some l)
      = [10] ++ pySliceTo text l ++ [32] ++ [10, 10] := by
  have hlen : ((pySliceTo text l).length : Int) ≤ l := by
    unfold pySliceTo
    rw [if_pos h]
    simp only [List.length_take]
    omega
  have hnot : ¬ l < ((pySliceTo text l).length : Int) := not_lt.mpr hlen
  simp [console_logger, hnot]

/-- Witness for the amended claim C9 at the text "abc" and limit 2. -/
theorem claim_C9_witness :
    console_logger [97, 98, 99] (some 2)
      = [10] ++ pySliceTo [97, 98, 99] 2 ++ [32] ++ [10, 10] :=
  claim_C9 [97, 98, 99] 2 (by decide)

end Bookbot
